import Mathlib

/-!
Verification development for the EVM event watchdog.

Shallow embedding of the repository's pure core:
  * `events/mod.rs`   — `Severity`, `EventType`, `NormalizedEvent` (payload `serde_json::Value`)
  * `state.rs`        — `AppState` with `update_block`, `add_alert`
  * `rules/mod.rs`    — `ThresholdRule`, `OwnershipRule`, `HighApprovalRule`, `RuleEngine`
  * `listener/mod.rs` — the per-log dispatch of `watch_logs`
  * `alerts/mod.rs`   — `AlertManager::send_alert` and the Discord provider body
  * `tui.rs`          — the alert-table message truncation

Rust `Instant::now()` is modelled by an explicit `now` argument; mutex-guarded
fields become plain fields of a pure state record; `HashMap` becomes an
association list (`insert` overwrites the first binding of the key);
`VecDeque` becomes a list whose head is the deque front.  `u64`/`U256` are
modelled as `Nat` (no arithmetic in the embedded code can overflow `u64`,
and `U256` parsing checks the `2^256` bound explicitly).
-/

namespace Watchdog

/-- `Severity` from `events/mod.rs` (derives `PartialEq, Eq, Hash`). -/
inductive Severity where
  | Low
  | Medium
  | High
  | Critical
deriving DecidableEq, Repr

/-- Rust `format!("{:?}", severity)` for the derived `Debug` instance. -/
def Severity.debugRepr : Severity → String
  | .Low => "Low"
  | .Medium => "Medium"
  | .High => "High"
  | .Critical => "Critical"

/-- `EventType` from `events/mod.rs`. -/
inductive EventType where
  | Transfer
  | OwnershipTransferred
  | Approval
  | Unknown (sig : String)
deriving DecidableEq, Repr

/-- `serde_json::Value`, as far as the embedded code inspects it. -/
inductive Json where
  | null
  | bool (b : Bool)
  | num (n : Int)
  | str (s : String)
  | arr (elems : List Json)
  | obj (fields : List (String × Json))

/-- `serde_json::Value::get(key)`: field lookup on objects, `None` otherwise. -/
def Json.get : Json → String → Option Json
  | .obj fields, key => fields.lookup key
  | _, _ => none

/-- `serde_json::Value::as_str()`. -/
def Json.as_str : Json → Option String
  | .str s => some s
  | _ => none

/-- `NormalizedEvent` from `events/mod.rs`.  `contract_address` is the 20-byte
`Address`, `tx_hash` the 32-byte `B256`, both as `Nat`. -/
structure NormalizedEvent where
  chain_id : Nat
  chain_name : String
  contract_address : Nat
  tx_hash : Nat
  block_number : Nat
  event_type : EventType
  severity : Severity
  data : Json

/-- One `alert_history` entry of `state.rs`:
`(Severity, ChainName, Message, Time, Count)`. -/
structure AlertRecord where
  severity : Severity
  chain : String
  message : String
  time : Nat
  count : Nat
deriving DecidableEq, Repr

/-- `AppState` from `state.rs`; every `Mutex<_>` field becomes a plain field.
`alert_history` is the `VecDeque` with the list head as the deque front;
the two `HashMap`s become association lists read through `lookup`. -/
structure AppState where
  chain_heights : List (String × Nat)
  last_block_time : Nat
  alert_history : List AlertRecord
  severity_counts : List (Severity × Nat)
  rule_hits : List (String × Nat)

/-- `HashMap::insert` on a string-keyed association list: overwrite the first
binding of the key, or append a fresh binding. -/
def insertKV : List (String × Nat) → String → Nat → List (String × Nat)
  | [], k, v => [(k, v)]
  | (k', v') :: rest, k, v =>
    if k' = k then (k, v) :: rest else (k', v') :: insertKV rest k v

/-- `*counts.entry(severity).or_insert(0) += 1` on the severity histogram. -/
def bumpCount : List (Severity × Nat) → Severity → List (Severity × Nat)
  | [], s => [(s, 1)]
  | (k, v) :: rest, s =>
    if k = s then (k, v + 1) :: rest else (k, v) :: bumpCount rest s

/-- `counts.get(&sev).unwrap_or(&0)`, the read used by the dashboard. -/
def getCount (m : List (Severity × Nat)) (s : Severity) : Nat :=
  (m.lookup s).getD 0

/-- `AppState::new()`; the initial `Instant::now()` is the `now` argument. -/
def AppState.new (now : Nat) : AppState :=
  { chain_heights := []
    last_block_time := now
    alert_history := []
    severity_counts := []
    rule_hits := [] }

/-- `AppState::update_block`: unconditional `HashMap::insert` of the height,
then refresh `last_block_time`. -/
def AppState.update_block (st : AppState) (chain_name : String) (block : Nat)
    (now : Nat) : AppState :=
  { st with
    chain_heights := insertKV st.chain_heights chain_name block
    last_block_time := now }

/-- The non-coalescing arm of `AppState::add_alert`: pop the front when the
deque already holds 50 records, then push the new record at the back. -/
def appendAlert (hist : List AlertRecord) (severity : Severity)
    (chain message : String) (now : Nat) : List AlertRecord :=
  let hist := if 50 ≤ hist.length then hist.tail else hist
  hist ++ [⟨severity, chain, message, now, 1⟩]

/-- `AppState::add_alert` from `state.rs`: bump the severity histogram, then
either coalesce into a matching tail record (refresh time, `count += 1`) or
append via the FIFO-evicting arm. -/
def AppState.add_alert (st : AppState) (severity : Severity)
    (chain message : String) (now : Nat) : AppState :=
  let counts := bumpCount st.severity_counts severity
  match st.alert_history.getLast? with
  | some last =>
    if last.severity = severity ∧ last.chain = chain ∧ last.message = message then
      { st with
        severity_counts := counts
        alert_history := st.alert_history.dropLast
          ++ [{ last with time := now, count := last.count + 1 }] }
    else
      { st with
        severity_counts := counts
        alert_history := appendAlert st.alert_history severity chain message now }
  | none =>
      { st with
        severity_counts := counts
        alert_history := appendAlert st.alert_history severity chain message now }

/-- One recorded `add_alert` call: severity, chain, message, and the
`Instant::now()` of the call. -/
abbrev AddCall := Severity × String × String × Nat

/-- Replay a sequence of `add_alert` calls. -/
def applyAdds (st : AppState) : List AddCall → AppState
  | [] => st
  | (s, c, m, t) :: rest => applyAdds (st.add_alert s c m t) rest

theorem lookup_insertKV (m : List (String × Nat)) (k : String) (v : Nat) :
    (insertKV m k v).lookup k = some v := by
  induction m with
  | nil => simp [insertKV, List.lookup]
  | cons hd tl ih =>
    obtain ⟨k', v'⟩ := hd
    by_cases h : k' = k
    · simp [insertKV, h, List.lookup]
    · simp only [insertKV, if_neg h, List.lookup]
      have : (k == k') = false := by
        simp [beq_iff_eq]
        exact fun hk => h hk.symm
      simp [this, ih]

/-- C1 as stated is false on the code: `update_block` performs an
unconditional insert, so replaying the lower height 99 after 100 stores 99. -/
theorem C1_counterexample :
    ((((AppState.new 0).update_block "ethereum" 100 1).update_block
        "ethereum" 99 2).chain_heights.lookup "ethereum" = some 99)
    ∧ (99 : Nat) ≠ 100 := by
  constructor
  · rfl
  · decide

/-- C1 (amended): `update_block` is last-write-wins with no monotonicity
check; after `update_block(chain, h)` the stored height for `chain` is
exactly `h`, whatever was stored before.  `last_block_time` is refreshed. -/
theorem C1_update_block_overwrites (st : AppState) (chain : String)
    (block now : Nat) :
    (st.update_block chain block now).chain_heights.lookup chain = some block
    ∧ (st.update_block chain block now).last_block_time = now := by
  refine ⟨?_, rfl⟩
  simp [AppState.update_block, lookup_insertKV]

theorem getCount_bumpCount (m : List (Severity × Nat)) (s s' : Severity) :
    getCount (bumpCount m s) s' = getCount m s' + if s' = s then 1 else 0 := by
  induction m with
  | nil =>
    by_cases h : s' = s
    · subst h
      simp [bumpCount, getCount, List.lookup]
    · have hb : (s' == s) = false := beq_eq_false_iff_ne.mpr h
      simp [bumpCount, getCount, List.lookup, hb, h]
  | cons hd tl ih =>
    obtain ⟨k, v⟩ := hd
    by_cases hk : k = s
    · subst hk
      simp only [bumpCount, if_pos rfl]
      by_cases h : s' = k
      · subst h
        simp [getCount, List.lookup]
      · have hb : (s' == k) = false := beq_eq_false_iff_ne.mpr h
        simp [getCount, List.lookup, hb, h]
    · simp only [bumpCount, if_neg hk]
      by_cases h : s' = k
      · have hb : (s' == k) = true := beq_iff_eq.mpr h
        have hs : ¬ s' = s := fun hss => hk (h.symm.trans hss)
        simp [getCount, List.lookup, hb, hs]
      · have hb : (s' == k) = false := beq_eq_false_iff_ne.mpr h
        simp only [getCount, List.lookup, hb] at ih ⊢
        exact ih

theorem add_alert_severity_counts (st : AppState) (s : Severity)
    (c m : String) (t : Nat) :
    (st.add_alert s c m t).severity_counts = bumpCount st.severity_counts s := by
  unfold AppState.add_alert
  cases st.alert_history.getLast? with
  | none => rfl
  | some last =>
    by_cases h : last.severity = s ∧ last.chain = c ∧ last.message = m <;>
      simp [h]

theorem applyAdds_getCount (calls : List AddCall) (st : AppState)
    (s : Severity) :
    getCount (applyAdds st calls).severity_counts s
      = getCount st.severity_counts s + calls.countP (fun c => c.1 == s) := by
  induction calls generalizing st with
  | nil => simp [applyAdds]
  | cons hd tl ih =>
    obtain ⟨sv, c, m, t⟩ := hd
    simp only [applyAdds, List.countP_cons]
    rw [ih, add_alert_severity_counts, getCount_bumpCount]
    by_cases h : s = sv
    · subst h
      simp
      omega
    · have hb : (sv == s) = false := by
        simpa using fun hss => h hss.symm
      simp [h, hb]

theorem countP_severity_partition (calls : List AddCall) :
    calls.countP (fun c => c.1 == Severity.Low)
      + calls.countP (fun c => c.1 == Severity.Medium)
      + calls.countP (fun c => c.1 == Severity.High)
      + calls.countP (fun c => c.1 == Severity.Critical) = calls.length := by
  induction calls with
  | nil => simp
  | cons hd tl ih =>
    obtain ⟨sv, c, m, t⟩ := hd
    simp only [List.countP_cons, List.length_cons]
    cases sv <;> simp <;> omega

/-- C3: starting from `AppState::new()`, `severity_counts[s]` equals the
number of `add_alert` calls with severity `s` so far (coalesced repeats
included, since the histogram is bumped before the coalescing check), and the
histogram's total over the four severities equals the number of calls. -/
theorem C3_severity_counts_cumulative (calls : List AddCall) :
    (∀ s, getCount (applyAdds (AppState.new 0) calls).severity_counts s
        = calls.countP (fun c => c.1 == s))
    ∧ ([Severity.Low, Severity.Medium, Severity.High, Severity.Critical].map
        (fun s => getCount (applyAdds (AppState.new 0) calls).severity_counts s)).sum
      = calls.length := by
  have hpt : ∀ s, getCount (applyAdds (AppState.new 0) calls).severity_counts s
      = calls.countP (fun c => c.1 == s) := by
    intro s
    rw [applyAdds_getCount]
    simp [AppState.new, getCount, List.lookup]
  refine ⟨hpt, ?_⟩
  have hs := countP_severity_partition calls
  simp only [List.map, List.sum_cons, List.sum_nil, hpt]
  omega

/-- The tail-coalescing test of `add_alert`: does the back record of the
deque match the incoming (severity, chain, message) triple? -/
def tailMatch (hist : List AlertRecord) (severity : Severity)
    (chain message : String) : Bool :=
  match hist.getLast? with
  | some last =>
    last.severity == severity && last.chain == chain && last.message == message
  | none => false

theorem add_alert_history_match (st : AppState) (s : Severity) (c m : String)
    (t : Nat) (last : AlertRecord)
    (hl : st.alert_history.getLast? = some last)
    (h1 : last.severity = s) (h2 : last.chain = c) (h3 : last.message = m) :
    (st.add_alert s c m t).alert_history
      = st.alert_history.dropLast
        ++ [{ last with time := t, count := last.count + 1 }] := by
  unfold AppState.add_alert
  rw [hl]
  simp [h1, h2, h3]

theorem add_alert_history_nomatch (st : AppState) (s : Severity) (c m : String)
    (t : Nat) (h : tailMatch st.alert_history s c m = false) :
    (st.add_alert s c m t).alert_history
      = appendAlert st.alert_history s c m t := by
  unfold AppState.add_alert
  unfold tailMatch at h
  cases hl : st.alert_history.getLast? with
  | none => simp
  | some last =>
    rw [hl] at h
    have hne : ¬ (last.severity = s ∧ last.chain = c ∧ last.message = m) := by
      rintro ⟨e1, e2, e3⟩
      simp [e1, e2, e3] at h
    simp [hne]

theorem appendAlert_length (hist : List AlertRecord) (s : Severity)
    (c m : String) (t : Nat) :
    (appendAlert hist s c m t).length
      = if 50 ≤ hist.length then hist.length else hist.length + 1 := by
  unfold appendAlert
  by_cases h : 50 ≤ hist.length
  · simp [h, List.length_tail]
    omega
  · simp [h]

theorem getLast?_some_length_pos (hist : List AlertRecord)
    (last : AlertRecord) (hl : hist.getLast? = some last) :
    1 ≤ hist.length := by
  cases hist with
  | nil => simp at hl
  | cons hd tl => simp

theorem add_alert_history_length_le (st : AppState) (s : Severity)
    (c m : String) (t : Nat) (h : st.alert_history.length ≤ 50) :
    (st.add_alert s c m t).alert_history.length ≤ 50 := by
  by_cases hm : tailMatch st.alert_history s c m = true
  · unfold tailMatch at hm
    cases hl : st.alert_history.getLast? with
    | none => rw [hl] at hm; simp at hm
    | some last =>
      rw [hl] at hm
      simp only [Bool.and_eq_true, beq_iff_eq] at hm
      rw [add_alert_history_match st s c m t last hl hm.1.1 hm.1.2 hm.2]
      have hpos := getLast?_some_length_pos st.alert_history last hl
      simp [List.length_dropLast]
      omega
  · rw [add_alert_history_nomatch st s c m t (by simpa using hm)]
    rw [appendAlert_length]
    split <;> omega

theorem applyAdds_history_length_le (calls : List AddCall) (st : AppState)
    (h : st.alert_history.length ≤ 50) :
    (applyAdds st calls).alert_history.length ≤ 50 := by
  induction calls generalizing st with
  | nil => exact h
  | cons hd tl ih =>
    obtain ⟨s, c, m, t⟩ := hd
    exact ih _ (add_alert_history_length_le st s c m t h)

/-- C4: from `AppState::new()` the alert history never exceeds 50 records;
when a non-coalescing add arrives at a full (50-record) history the front
record is popped first (FIFO) and the new record goes to the back; below the
cap a non-coalescing add simply appends at the back. -/
theorem C4_history_bounded_fifo :
    (∀ calls, (applyAdds (AppState.new 0) calls).alert_history.length ≤ 50)
    ∧ (∀ (st : AppState) (s : Severity) (c m : String) (t : Nat),
        st.alert_history.length = 50 →
        tailMatch st.alert_history s c m = false →
        (st.add_alert s c m t).alert_history
          = st.alert_history.tail ++ [⟨s, c, m, t, 1⟩])
    ∧ (∀ (st : AppState) (s : Severity) (c m : String) (t : Nat),
        st.alert_history.length < 50 →
        tailMatch st.alert_history s c m = false →
        (st.add_alert s c m t).alert_history
          = st.alert_history ++ [⟨s, c, m, t, 1⟩]) := by
  refine ⟨fun calls => applyAdds_history_length_le calls _ (by simp [AppState.new]),
    fun st s c m t hlen hm => ?_, fun st s c m t hlen hm => ?_⟩
  · rw [add_alert_history_nomatch st s c m t hm]
    unfold appendAlert
    rw [if_pos (by omega)]
  · rw [add_alert_history_nomatch st s c m t hm]
    unfold appendAlert
    rw [if_neg (by omega)]

/-- A concrete `AppState` whose history holds 50 pairwise distinct records. -/
def fullState : AppState :=
  { AppState.new 0 with
    alert_history := (List.range 50).map fun i => ⟨.Low, "c", Nat.repr i, 0, 1⟩ }

/-- Witness for C4: the FIFO-eviction and plain-append cases at concrete
states. -/
theorem C4_witness :
    ((fullState.add_alert .High "eth" "m" 7).alert_history
        = fullState.alert_history.tail ++ [⟨.High, "eth", "m", 7, 1⟩])
    ∧ (((AppState.new 0).add_alert .High "eth" "m" 7).alert_history
        = (AppState.new 0).alert_history ++ [⟨.High, "eth", "m", 7, 1⟩]) :=
  ⟨C4_history_bounded_fifo.2.1 fullState .High "eth" "m" 7 (by decide) (by decide),
   C4_history_bounded_fifo.2.2 (AppState.new 0) .High "eth" "m" 7 (by decide) (by decide)⟩

/-- C5: an `add_alert` whose triple equals the tail record coalesces: the
history keeps its length, the tail's count goes up by exactly one and its
timestamp is refreshed; a non-matching (or first) add appends a fresh record
with count 1 at the back. -/
theorem C5_tail_coalescing :
    (∀ (st : AppState) (s : Severity) (c m : String) (t : Nat)
        (last : AlertRecord), st.alert_history.getLast? = some last →
        last.severity = s → last.chain = c → last.message = m →
        (st.add_alert s c m t).alert_history
            = st.alert_history.dropLast
              ++ [{ last with time := t, count := last.count + 1 }]
          ∧ (st.add_alert s c m t).alert_history.length
            = st.alert_history.length)
    ∧ (∀ (st : AppState) (s : Severity) (c m : String) (t : Nat),
        tailMatch st.alert_history s c m = false →
        (st.add_alert s c m t).alert_history.getLast? = some ⟨s, c, m, t, 1⟩) := by
  constructor
  · intro st s c m t last hl h1 h2 h3
    have heq := add_alert_history_match st s c m t last hl h1 h2 h3
    refine ⟨heq, ?_⟩
    rw [heq]
    have hpos := getLast?_some_length_pos st.alert_history last hl
    simp [List.length_dropLast]
    omega
  · intro st s c m t hm
    rw [add_alert_history_nomatch st s c m t hm]
    unfold appendAlert
    split <;> simp

/-- A concrete `AppState` holding a single history record. -/
def oneRecState : AppState :=
  { AppState.new 0 with alert_history := [⟨.High, "eth", "m", 3, 2⟩] }

/-- Witness for C5: coalescing on a matching tail and appending on a fresh
state, at concrete inputs. -/
theorem C5_witness :
    ((oneRecState.add_alert .High "eth" "m" 9).alert_history
        = [⟨.High, "eth", "m", 9, 3⟩]
      ∧ (oneRecState.add_alert .High "eth" "m" 9).alert_history.length
        = oneRecState.alert_history.length)
    ∧ ((AppState.new 0).add_alert .Low "c" "x" 1).alert_history.getLast?
        = some ⟨.Low, "c", "x", 1, 1⟩ := by
  have h := C5_tail_coalescing.1 oneRecState .High "eth" "m" 9
    ⟨.High, "eth", "m", 3, 2⟩ rfl rfl rfl rfl
  have h2 := C5_tail_coalescing.2 (AppState.new 0) .Low "c" "x" 1 rfl
  exact ⟨⟨by rw [h.1]; decide, h.2⟩, h2⟩

/-- One digit of the given radix, as `char.to_digit` bounded by the radix:
`0`-`9`, then `a`-`f` / `A`-`F` for radices above ten. -/
def digitVal (radix : Nat) (c : Char) : Option Nat :=
  let v :=
    if 48 ≤ c.toNat ∧ c.toNat ≤ 57 then some (c.toNat - 48)
    else if 97 ≤ c.toNat ∧ c.toNat ≤ 102 then some (c.toNat - 87)
    else if 65 ≤ c.toNat ∧ c.toNat ≤ 70 then some (c.toNat - 55)
    else none
  match v with
  | some d => if d < radix then some d else none
  | none => none

/-- Accumulate digits of the given radix; any non-digit fails the parse. -/
def parseDigits (radix : Nat) : List Char → Nat → Option Nat
  | [], acc => some acc
  | c :: cs, acc =>
    match digitVal radix c with
    | some d => parseDigits radix cs (acc * radix + d)
    | none => none

/-- `str::parse::<U256>()` (alloy/ruint `FromStr`): radix from an optional
`0x`/`0b`/`0o` prefix (decimal otherwise), then digit accumulation, failing
on an empty digit string, a non-digit, or overflow past `2^256 - 1`.
Digit-separator underscores are not modelled (no embedded code produces
them). -/
def parseU256 (s : String) : Option Nat :=
  let (radix, digits) :=
    match s.data with
    | '0' :: 'x' :: rest => (16, rest)
    | '0' :: 'X' :: rest => (16, rest)
    | '0' :: 'b' :: rest => (2, rest)
    | '0' :: 'B' :: rest => (2, rest)
    | '0' :: 'o' :: rest => (8, rest)
    | '0' :: 'O' :: rest => (8, rest)
    | cs => (10, cs)
  if digits.isEmpty then none
  else
    match parseDigits radix digits 0 with
    | some n => if n < 2 ^ 256 then some n else none
    | none => none

/-- The three registered rule shapes of `rules/mod.rs`.  The Rust `Rule`
trait objects in this program are exactly these three structs; `U256`
parameters are `Nat` (all constructed values fit 256 bits). -/
inductive Rule where
  | threshold (min_value : Nat) (severity : Severity)
  | ownership (severity : Severity)
  | highApproval (threshold : Nat) (severity : Severity)

/-- `Rule::check` for each rule struct, mirroring the nested `if let`
chains: `ThresholdRule` fires on `Transfer` when the payload's `"value"`
string parses as `U256` and is `≥ min_value`; `OwnershipRule` fires on every
`OwnershipTransferred`; `HighApprovalRule` fires on `Approval` when the
parsed value is `≥ threshold`.  Messages are the exact `format!` strings. -/
def Rule.check : Rule → NormalizedEvent → Option (String × Severity)
  | .threshold min_value severity, e =>
    match e.event_type with
    | .Transfer =>
      match e.data.get "value" with
      | some value =>
        match value.as_str with
        | some val_str =>
          match parseU256 val_str with
          | some val =>
            if min_value ≤ val then
              some ("Large Transfer Detected: " ++ Nat.repr val ++ " > "
                ++ Nat.repr min_value, severity)
            else none
          | none => none
        | none => none
      | none => none
    | _ => none
  | .ownership severity, e =>
    match e.event_type with
    | .OwnershipTransferred => some ("Ownership Transferred!", severity)
    | _ => none
  | .highApproval thr severity, e =>
    match e.event_type with
    | .Approval =>
      match e.data.get "value" with
      | some value =>
        match value.as_str with
        | some val_str =>
          match parseU256 val_str with
          | some val =>
            if thr ≤ val then
              some ("High Approval Detected: " ++ Nat.repr val ++ " >= "
                ++ Nat.repr thr, severity)
            else none
          | none => none
        | none => none
      | none => none
    | _ => none

/-- `RuleEngine` from `rules/mod.rs`: an ordered list of rules. -/
structure RuleEngine where
  rules : List Rule

/-- `RuleEngine::new()`. -/
def RuleEngine.new : RuleEngine := ⟨[]⟩

/-- `RuleEngine::add_rule`: push at the back. -/
def RuleEngine.add_rule (eng : RuleEngine) (rule : Rule) : RuleEngine :=
  ⟨eng.rules ++ [rule]⟩

/-- `RuleEngine::process`: start from an empty vector and push each rule's
`Some` result in registration order. -/
def RuleEngine.process (eng : RuleEngine) (e : NormalizedEvent) :
    List (String × Severity) :=
  eng.rules.foldl
    (fun alerts rule =>
      match rule.check e with
      | some result => alerts ++ [result]
      | none => alerts)
    []

theorem process_eq_filterMap (eng : RuleEngine) (e : NormalizedEvent) :
    eng.process e = eng.rules.filterMap (fun r => r.check e) := by
  unfold RuleEngine.process
  suffices h : ∀ (rs : List Rule) (acc : List (String × Severity)),
      rs.foldl (fun alerts rule =>
        match rule.check e with
        | some result => alerts ++ [result]
        | none => alerts) acc = acc ++ rs.filterMap (fun r => r.check e) by
    simpa using h eng.rules []
  intro rs
  induction rs with
  | nil => simp
  | cons hd tl ih =>
    intro acc
    cases h : hd.check e <;> simp [List.filterMap_cons, h, ih]

/-- C6: `process` returns exactly the `Some` results of the registered
rules' `check`, in registration order (it equals `filterMap check` over the
rule list), so each registered rule contributes at most one entry and `None`
results contribute nothing; in particular the result is never longer than
the rule list. -/
theorem C6_process_ordered_results (eng : RuleEngine) (e : NormalizedEvent) :
    eng.process e = eng.rules.filterMap (fun r => r.check e)
    ∧ (eng.process e).length ≤ eng.rules.length := by
  have h := process_eq_filterMap eng e
  refine ⟨h, ?_⟩
  rw [h]
  exact List.length_filterMap_le _ _

/-- C7: `ThresholdRule::check` returns `Some` exactly on `Transfer` events
whose payload has a string field `"value"` parsing as a `U256` that is
`≥ min_value` (so the boundary `value = min_value` fires, and a missing or
unparseable value gives `None`); the result carries the configured severity
and the message `"Large Transfer Detected: {value} > {min_value}"` (the `>`
is stylistic, the comparison performed is `≥`). -/
theorem C7_threshold_check_iff (min_value : Nat) (severity : Severity)
    (e : NormalizedEvent) (res : String × Severity) :
    (Rule.threshold min_value severity).check e = some res
      ↔ e.event_type = EventType.Transfer
        ∧ ∃ s val, (e.data.get "value").bind Json.as_str = some s
            ∧ parseU256 s = some val
            ∧ min_value ≤ val
            ∧ res = ("Large Transfer Detected: " ++ Nat.repr val ++ " > "
                ++ Nat.repr min_value, severity) := by
  cases het : e.event_type with
  | Transfer =>
    cases hv : e.data.get "value" with
    | none => simp [Rule.check, het, hv]
    | some value =>
      cases hs : value.as_str with
      | none => simp [Rule.check, het, hv, hs]
      | some val_str =>
        cases hp : parseU256 val_str with
        | none => simp [Rule.check, het, hv, hs, hp]
        | some val =>
          by_cases hc : min_value ≤ val
          · simp [Rule.check, het, hv, hs, hp, hc, eq_comm]
          · simp [Rule.check, het, hv, hs, hp, hc]
  | OwnershipTransferred => simp [Rule.check, het]
  | Approval => simp [Rule.check, het]
  | Unknown sig => simp [Rule.check, het]

/-- An EVM log as `watch_logs` receives it: up to four 32-byte topics and a
byte blob, plus the optional transaction hash and block number of the RPC
envelope. -/
structure Log where
  address : Nat
  topics : List Nat
  data : List Nat
  transaction_hash : Option Nat
  block_number : Option Nat

/-- `keccak256("Transfer(address,address,uint256)")`. -/
def TRANSFER_SIGNATURE_HASH : Nat :=
  0xddf252ad1be2c89b69c2b068fc378daa952ba7f163c4a11628f55a4df523b3ef

/-- `keccak256("Approval(address,address,uint256)")`. -/
def APPROVAL_SIGNATURE_HASH : Nat :=
  0x8c5be1e5ebec7d5bd14f71427d1e84f3dd0314c0f7b2291e5b200ac8c7c3b925

/-- `keccak256("OwnershipTransferred(address,address)")`. -/
def OWNERSHIP_TRANSFERRED_SIGNATURE_HASH : Nat :=
  0x8be0079c531659141344cd1fd0a4f28419497f9722a3daafe3b4186f6b6457e0

/-- Big-endian byte-blob to `Nat` (the 32-byte `uint256` data slot). -/
def wordToNat (bytes : List Nat) : Nat :=
  bytes.foldl (fun acc b => acc * 256 + b) 0

/-- Fixed-width lowercase hex digits of `n` (big-endian). -/
def hexDigits (n width : Nat) : List Char :=
  (List.range width).reverse.map fun i => Nat.digitChar ((n / 16 ^ i) % 16)

/-- serde of an `Address`: `0x` plus 40 lowercase hex digits. -/
def addressHex (a : Nat) : String :=
  "0x" ++ String.mk (hexDigits a 40)

/-- serde of a `U256` (ruint human-readable): `0x` plus minimal hex. -/
def u256Hex (n : Nat) : String :=
  "0x" ++ String.mk (Nat.toDigits 16 n)

/-- Decoded `Transfer(address indexed from, address indexed to, uint256
value)`; the Rust fields `from`/`to` are `fromAddr`/`toAddr` (`from` is a
Lean keyword). -/
structure TransferDecoded where
  fromAddr : Nat
  toAddr : Nat
  value : Nat

/-- Decoded `Approval(address indexed owner, address indexed spender,
uint256 value)`. -/
structure ApprovalDecoded where
  owner : Nat
  spender : Nat
  value : Nat

/-- Decoded `OwnershipTransferred(address indexed previousOwner, address
indexed newOwner)`. -/
structure OwnershipDecoded where
  previousOwner : Nat
  newOwner : Nat

/-- `Transfer::decode_log(log, true)`: exactly topic0 plus the two indexed
addresses (low 20 bytes of each topic word), and a single 32-byte data slot
for `value`; anything else is a decode error (`none`), which the listener
drops. -/
def Transfer.decode_log (log : Log) : Option TransferDecoded :=
  match log.topics with
  | [_, t1, t2] =>
    if log.data.length = 32 then
      some ⟨t1 % 2 ^ 160, t2 % 2 ^ 160, wordToNat log.data⟩
    else none
  | _ => none

/-- `Approval::decode_log(log, true)`, same shape as `Transfer`. -/
def Approval.decode_log (log : Log) : Option ApprovalDecoded :=
  match log.topics with
  | [_, t1, t2] =>
    if log.data.length = 32 then
      some ⟨t1 % 2 ^ 160, t2 % 2 ^ 160, wordToNat log.data⟩
    else none
  | _ => none

/-- `OwnershipTransferred::decode_log(log, true)`: two indexed addresses and
no data. -/
def OwnershipTransferred.decode_log (log : Log) : Option OwnershipDecoded :=
  match log.topics with
  | [_, t1, t2] =>
    if log.data.length = 0 then
      some ⟨t1 % 2 ^ 160, t2 % 2 ^ 160⟩
    else none
  | _ => none

/-- `serde_json::to_value` of the decoded `Transfer` struct. -/
def TransferDecoded.toJson (d : TransferDecoded) : Json :=
  .obj [("from", .str (addressHex d.fromAddr)),
        ("to", .str (addressHex d.toAddr)),
        ("value", .str (u256Hex d.value))]

/-- `serde_json::to_value` of the decoded `Approval` struct. -/
def ApprovalDecoded.toJson (d : ApprovalDecoded) : Json :=
  .obj [("owner", .str (addressHex d.owner)),
        ("spender", .str (addressHex d.spender)),
        ("value", .str (u256Hex d.value))]

/-- `serde_json::to_value` of the decoded `OwnershipTransferred` struct. -/
def OwnershipDecoded.toJson (d : OwnershipDecoded) : Json :=
  .obj [("previousOwner", .str (addressHex d.previousOwner)),
        ("newOwner", .str (addressHex d.newOwner))]

/-- The per-log body of `watch_logs` (`listener/mod.rs`): take topic0, match
it against the three known signature hashes, decode and build the
`NormalizedEvent` that is sent on the channel (`none` means nothing is
sent: no topics, a failed decode, or — in the final `else` — an unknown
signature, which is only logged at debug level).  `chain_id` is the
hard-coded `1` of the source; the source's struct literal carries no
`chain_name`, modelled as `""`. -/
def processLog (log : Log) : Option NormalizedEvent :=
  match log.topics.head? with
  | none => none
  | some sig =>
    if sig = OWNERSHIP_TRANSFERRED_SIGNATURE_HASH then
      match OwnershipTransferred.decode_log log with
      | some decoded =>
        some { chain_id := 1
               chain_name := ""
               contract_address := log.address
               tx_hash := log.transaction_hash.getD 0
               block_number := log.block_number.getD 0
               event_type := .OwnershipTransferred
               severity := .Low
               data := decoded.toJson }
      | none => none
    else if sig = TRANSFER_SIGNATURE_HASH then
      match Transfer.decode_log log with
      | some decoded =>
        some { chain_id := 1
               chain_name := ""
               contract_address := log.address
               tx_hash := log.transaction_hash.getD 0
               block_number := log.block_number.getD 0
               event_type := .Transfer
               severity := .Low
               data := decoded.toJson }
      | none => none
    else if sig = APPROVAL_SIGNATURE_HASH then
      match Approval.decode_log log with
      | some decoded =>
        some { chain_id := 1
               chain_name := ""
               contract_address := log.address
               tx_hash := log.transaction_hash.getD 0
               block_number := log.block_number.getD 0
               event_type := .Approval
               severity := .Low
               data := decoded.toJson }
      | none => none
    else
      none

/-- A log whose topic0 (`1`) matches none of the three known signatures. -/
def unknownLog : Log :=
  { address := 0
    topics := [1, 0, 0]
    data := List.replicate 32 0
    transaction_hash := none
    block_number := none }

/-- C2 as stated is false on the code: for a log whose topic0 matches no
known signature, `watch_logs` sends nothing at all (the final `else` only
emits a debug trace) — no `Unknown(hex-topic0)` event reaches the channel. -/
theorem C2_counterexample :
    processLog unknownLog = none
    ∧ (1 : Nat) ≠ TRANSFER_SIGNATURE_HASH
    ∧ (1 : Nat) ≠ APPROVAL_SIGNATURE_HASH
    ∧ (1 : Nat) ≠ OWNERSHIP_TRANSFERRED_SIGNATURE_HASH := by
  refine ⟨?_, by decide, by decide, by decide⟩
  rfl

/-- C2 (amended): a received log whose topic0 matches none of the three
known signatures is logged at debug level and discarded — no
`NormalizedEvent` of any kind is constructed or sent on the channel. -/
theorem C2_unknown_logs_dropped (log : Log) (sig : Nat)
    (h0 : log.topics.head? = some sig)
    (h1 : sig ≠ OWNERSHIP_TRANSFERRED_SIGNATURE_HASH)
    (h2 : sig ≠ TRANSFER_SIGNATURE_HASH)
    (h3 : sig ≠ APPROVAL_SIGNATURE_HASH) :
    processLog log = none := by
  unfold processLog
  rw [h0]
  simp [h1, h2, h3]

/-- Witness for C2 (amended) at a concrete unrecognized log. -/
theorem C2_witness :
    processLog { address := 5, topics := [2, 3], data := [],
                 transaction_hash := none, block_number := none } = none :=
  C2_unknown_logs_dropped _ 2 rfl (by decide) (by decide) (by decide)

/-- `AlertsConfig` as the dispatcher reads it: `webhook_url` (declared in
`config.rs`; empty means disabled) and the optional Telegram credentials
accessed by `alerts/mod.rs`. -/
structure AlertsConfig where
  webhook_url : String
  telegram_bot_token : Option String
  telegram_chat_id : Option String

/-- The two outbound notification providers of `alerts/mod.rs`. -/
inductive Provider where
  | discord
  | telegram
deriving DecidableEq, Repr

/-- `AlertManager` state: the per-key cooldown map (`last_alerts`) and the
60-second cooldown; the HTTP client carries no state we model. -/
structure AlertManager where
  config : AlertsConfig
  last_alerts : List (String × Nat)
  cooldown : Nat

/-- `AlertManager::new`: empty cooldown map, `cooldown = 60` seconds. -/
def AlertManager.new (config : AlertsConfig) : AlertManager :=
  { config := config, last_alerts := [], cooldown := 60 }

/-- The deduplication key `format!("{:?}:{}", severity, message)`. -/
def dedupKey (severity : Severity) (message : String) : String :=
  severity.debugRepr ++ ":" ++ message

/-- The providers a dispatching `send_alert` actually POSTs to, in dispatch
order: Discord unless `webhook_url` is empty, then Telegram when both
credentials are present and non-empty (each guard mirrors the early
`return`s of `send_discord_alert` / `send_telegram_alert`). -/
def enabledProviders (cfg : AlertsConfig) : List Provider :=
  (if cfg.webhook_url = "" then [] else [.discord])
    ++ (match cfg.telegram_bot_token, cfg.telegram_chat_id with
        | some tok, some chat =>
          if tok ≠ "" ∧ chat ≠ "" then [.telegram] else []
        | _, _ => [])

/-- `AlertManager::send_alert`: compute the key; if the key has a stored
timestamp whose elapsed time is below the cooldown, suppress (no state
change, no POSTs); otherwise store `now` for the key and fan out to every
enabled provider.  Returns the updated manager and the list of providers
POSTed to. -/
def AlertManager.send_alert (mgr : AlertManager) (severity : Severity)
    (message : String) (now : Nat) : AlertManager × List Provider :=
  let key := dedupKey severity message
  match mgr.last_alerts.lookup key with
  | some last_time =>
    if now - last_time < mgr.cooldown then
      (mgr, [])
    else
      ({ mgr with last_alerts := insertKV mgr.last_alerts key now },
        enabledProviders mgr.config)
  | none =>
      ({ mgr with last_alerts := insertKV mgr.last_alerts key now },
        enabledProviders mgr.config)

/-- An `AlertManager` with the configured 60 s cooldown and an arbitrary
already-accumulated cooldown map. -/
def mkManager (cfg : AlertsConfig) (la : List (String × Nat)) : AlertManager :=
  { config := cfg, last_alerts := la, cooldown := 60 }

/-- C8: with key `format(severity) + ":" + message` and cooldown 60 s: a
call within the cooldown of the stored timestamp returns with no provider
contact and no timestamp update; otherwise the timestamp is overwritten with
`now` and every enabled provider is POSTed exactly once; hence two calls
with an equal key within the window yield exactly one POST per enabled
provider (the first call's fan-out) and none from the second. -/
theorem C8_cooldown_dedup (cfg : AlertsConfig) (la : List (String × Nat))
    (severity : Severity) (message : String) :
    (∀ now t, la.lookup (dedupKey severity message) = some t →
        now - t < 60 →
        (mkManager cfg la).send_alert severity message now
          = (mkManager cfg la, []))
    ∧ (∀ now, la.lookup (dedupKey severity message) = none →
        ((mkManager cfg la).send_alert severity message now).2
            = enabledProviders cfg
          ∧ ((mkManager cfg la).send_alert severity message now).1.last_alerts.lookup
              (dedupKey severity message) = some now)
    ∧ (∀ now t, la.lookup (dedupKey severity message) = some t →
        60 ≤ now - t →
        ((mkManager cfg la).send_alert severity message now).2
            = enabledProviders cfg
          ∧ ((mkManager cfg la).send_alert severity message now).1.last_alerts.lookup
              (dedupKey severity message) = some now)
    ∧ (∀ t1 t2, la.lookup (dedupKey severity message) = none →
        t2 - t1 < 60 →
        ((mkManager cfg la).send_alert severity message t1).2
            = enabledProviders cfg
          ∧ (((mkManager cfg la).send_alert severity message t1).1.send_alert
              severity message t2)
            = (((mkManager cfg la).send_alert severity message t1).1, [])) := by
  refine ⟨fun now t hl hcd => ?_, fun now hl => ?_, fun now t hl hcd => ?_,
    fun t1 t2 hl hcd => ?_⟩
  · unfold AlertManager.send_alert mkManager
    simp only [hl]
    rw [if_pos hcd]
  · unfold AlertManager.send_alert mkManager
    simp only [hl]
    exact ⟨by simp, lookup_insertKV _ _ _⟩
  · unfold AlertManager.send_alert mkManager
    simp only [hl]
    rw [if_neg (by omega)]
    exact ⟨by simp, lookup_insertKV _ _ _⟩
  · have h1 : (mkManager cfg la).send_alert severity message t1
        = ({ mkManager cfg la with
              last_alerts := insertKV la (dedupKey severity message) t1 },
            enabledProviders cfg) := by
      unfold AlertManager.send_alert mkManager
      simp only [hl]
    refine ⟨by rw [h1], ?_⟩
    rw [h1]
    unfold AlertManager.send_alert
    simp only [lookup_insertKV]
    rw [if_pos (by simpa using hcd)]

/-- A concrete `AlertsConfig` with the webhook enabled and Telegram off. -/
def demoConfig : AlertsConfig :=
  { webhook_url := "https://example.com/hook"
    telegram_bot_token := none
    telegram_chat_id := none }

/-- Witness for C8: a fresh key dispatched at `t = 0` and suppressed on the
repeat at `t = 30`. -/
theorem C8_witness :
    ((mkManager demoConfig []).send_alert .High "m" 0).2
        = enabledProviders demoConfig
      ∧ (((mkManager demoConfig []).send_alert .High "m" 0).1.send_alert
          .High "m" 30)
        = (((mkManager demoConfig []).send_alert .High "m" 0).1, []) :=
  (C8_cooldown_dedup demoConfig [] .High "m").2.2.2 0 30 rfl (by decide)

/-- `EmbedField` of the Discord webhook body. -/
structure EmbedField where
  name : String
  value : String
  inline : Bool
deriving DecidableEq, Repr

/-- `DiscordEmbed` of the webhook body. -/
structure DiscordEmbed where
  title : String
  description : String
  color : Nat
  fields : List EmbedField
deriving DecidableEq, Repr

/-- `DiscordPayload`: `{content: null, embeds: [...]}`. -/
structure DiscordPayload where
  content : Option String
  embeds : List DiscordEmbed
deriving DecidableEq, Repr

/-- The per-severity embed `color` match of `send_discord_alert`. -/
def severityColor : Severity → Nat
  | .Critical => 0xFF0000
  | .High => 0xE67E22
  | .Medium => 0xF1C40F
  | .Low => 0x3498DB

/-- `AlertManager::send_discord_alert` (a `&self` method reading
`self.config`): skip silently when `webhook_url` is empty, otherwise build
and POST the payload.  The result is the POSTed body, `none` when skipped;
`now_repr` stands for `format!("{:?}", Instant::now())`.  The title prefix
is the source literal byte-for-byte: the four mojibake characters
U+00F0 U+0178 U+0161 U+00A8 (a UTF-8-misdecoded siren emoji) and a space. -/
def send_discord_alert (cfg : AlertsConfig) (severity : Severity)
    (message : String) (now_repr : String) : Option DiscordPayload :=
  if cfg.webhook_url = "" then none
  else
    some
      { content := none
        embeds := [{
          title := "ðŸš¨ EVM Watchdog Alert: "
            ++ severity.debugRepr
          description := message
          color := severityColor severity
          fields := [⟨"Severity", severity.debugRepr, true⟩,
                     ⟨"Timestamp", now_repr, true⟩] }] }

/-- C9 as stated is false on the code: the embed title is not exactly
`"EVM Watchdog Alert: {severity}"` — the `format!` string prefixes four
mojibake characters (a misdecoded siren emoji) and a space. -/
theorem C9_counterexample :
    ∃ p, send_discord_alert demoConfig .Critical "msg" "ts" = some p
      ∧ p.embeds.map DiscordEmbed.title ≠ ["EVM Watchdog Alert: Critical"] := by
  refine ⟨_, rfl, ?_⟩
  decide

/-- C9 (amended): with a non-empty `webhook_url` the provider POSTs exactly
`{content: null, embeds: [{title, description, color, fields}]}` with the
per-severity RGB colors (Critical `0xFF0000`, High `0xE67E22`, Medium
`0xF1C40F`, Low `0x3498DB`), an embed title that is the four mojibake
characters U+00F0 U+0178 U+0161 U+00A8 and a space followed by
`"EVM Watchdog Alert: {severity}"` (the source literal is a
UTF-8-misdecoded siren emoji), and the `Severity` and `Timestamp` fields;
with an empty `webhook_url` nothing is sent. -/
theorem C9_discord_payload (cfg : AlertsConfig) (severity : Severity)
    (message now_repr : String) :
    (cfg.webhook_url = "" →
        send_discord_alert cfg severity message now_repr = none)
    ∧ (cfg.webhook_url ≠ "" →
        send_discord_alert cfg severity message now_repr = some
          { content := none
            embeds := [{
              title := "ðŸš¨ EVM Watchdog Alert: "
                ++ severity.debugRepr
              description := message
              color := severityColor severity
              fields := [⟨"Severity", severity.debugRepr, true⟩,
                         ⟨"Timestamp", now_repr, true⟩] }] })
    ∧ severityColor .Critical = 0xFF0000 ∧ severityColor .High = 0xE67E22
    ∧ severityColor .Medium = 0xF1C40F ∧ severityColor .Low = 0x3498DB := by
  refine ⟨fun h => ?_, fun h => ?_, rfl, rfl, rfl, rfl⟩
  · unfold send_discord_alert
    rw [if_pos h]
  · unfold send_discord_alert
    rw [if_neg h]

/-- Witness for C9 (amended): the empty-url skip and a concrete enabled
POST. -/
theorem C9_witness :
    send_discord_alert ⟨"", none, none⟩ .Low "a" "b" = none
    ∧ send_discord_alert demoConfig .Critical "msg" "ts" = some
        { content := none
          embeds := [{
            title := "ðŸš¨ EVM Watchdog Alert: Critical"
            description := "msg"
            color := 0xFF0000
            fields := [⟨"Severity", "Critical", true⟩,
                       ⟨"Timestamp", "ts", true⟩] }] } :=
  ⟨(C9_discord_payload ⟨"", none, none⟩ .Low "a" "b").1 rfl,
   (C9_discord_payload demoConfig .Critical "msg" "ts").2.1 (by decide)⟩

/-- Rust `String::len`: the UTF-8 byte length. -/
def utf8Len : List Char → Nat
  | [] => 0
  | c :: cs => c.utf8Size + utf8Len cs

/-- Rust `String::truncate(n)` on the char list: keep whole chars while
bytes remain; `none` models the panic when `n` falls inside a char; a budget
at or past the end keeps everything (Rust: no effect). -/
def truncateBytes : List Char → Nat → Option (List Char)
  | _, 0 => some []
  | [], _ + 1 => some []
  | c :: cs, n + 1 =>
    if c.utf8Size ≤ n + 1 then
      (truncateBytes cs (n + 1 - c.utf8Size)).map (fun l => c :: l)
    else none

/-- The truncation step of the alert-table renderer in `run_app` (`tui.rs`):
`if display_msg.len() > 50 { display_msg.truncate(47); display_msg.push_str("...") }`;
`none` models a `truncate` panic. -/
def truncateDisplay (msg : String) : Option String :=
  if utf8Len msg.data > 50 then
    (truncateBytes msg.data 47).map (fun cs => String.mk cs ++ "...")
  else some msg

/-- The full display message: truncation, then the `" (x{count})"` suffix
when `count > 1`. -/
def renderMessage (msg : String) (count : Nat) : Option String :=
  (truncateDisplay msg).map fun d =>
    if count > 1 then d ++ " (x" ++ Nat.repr count ++ ")" else d

theorem utf8Size_eq_one_of_ascii (c : Char) (h : c.toNat < 128) :
    c.utf8Size = 1 := by
  unfold Char.utf8Size
  have hle : c.val ≤ UInt32.ofNatCore 0x7F (by decide) := by
    rw [UInt32.le_def, BitVec.le_def]
    exact Nat.le_of_lt_succ h
  rw [if_pos hle]

theorem truncateBytes_ascii (l : List Char) (n : Nat)
    (h : ∀ c ∈ l.take n, c.utf8Size = 1) :
    truncateBytes l n = some (l.take n) := by
  induction l generalizing n with
  | nil => cases n <;> simp [truncateBytes]
  | cons c cs ih =>
    cases n with
    | zero => simp [truncateBytes]
    | succ m =>
      have hc : c.utf8Size = 1 := h c (by simp)
      simp only [truncateBytes, hc]
      rw [if_pos (by omega)]
      have hrec := ih m (fun x hx => h x (by simp [hx]))
      simp [hrec]

theorem utf8Len_of_ascii (l : List Char) (h : ∀ c ∈ l, c.utf8Size = 1) :
    utf8Len l = l.length := by
  induction l with
  | nil => rfl
  | cons c cs ih =>
    have hrec := ih (fun x hx => h x (by simp [hx]))
    simp [utf8Len, h c (by simp), hrec, Nat.add_comm]

/-- C10: the alert-table renderer truncates a message longer than 50 bytes
at byte offset 47 and appends `"..."`; for any message whose first 48 bytes
are ASCII this never hits the `String::truncate` panic (offset 47 is a char
boundary), and the truncated display string is exactly 50 characters before
the optional repeat suffix. -/
theorem C10_truncation_safe (msg : String) (count : Nat)
    (hascii : ∀ c ∈ msg.data.take 48, c.toNat < 128) :
    (∃ d, renderMessage msg count = some d)
    ∧ (utf8Len msg.data > 50 →
        truncateDisplay msg = some (String.mk (msg.data.take 47) ++ "...")
          ∧ (String.mk (msg.data.take 47) ++ "...").length = 50) := by
  have hsz : ∀ c ∈ msg.data.take 48, c.utf8Size = 1 :=
    fun c hc => utf8Size_eq_one_of_ascii c (hascii c hc)
  have hsub : msg.data.take 47 ⊆ msg.data.take 48 := by
    have h47 : msg.data.take 47 = (msg.data.take 48).take 47 := by
      rw [List.take_take]
      norm_num
    rw [h47]
    exact List.take_subset _ _
  have ht : truncateBytes msg.data 47 = some (msg.data.take 47) :=
    truncateBytes_ascii msg.data 47 (fun c hc => hsz c (hsub hc))
  have hbig : utf8Len msg.data > 50 →
      truncateDisplay msg = some (String.mk (msg.data.take 47) ++ "...")
        ∧ (String.mk (msg.data.take 47) ++ "...").length = 50 := by
    intro hlong
    have hlen : 48 ≤ msg.data.length := by
      by_contra hlt
      push_neg at hlt
      have hall : msg.data.take 48 = msg.data :=
        List.take_of_length_le (by omega)
      have := utf8Len_of_ascii msg.data (hall ▸ hsz)
      omega
    constructor
    · unfold truncateDisplay
      rw [if_pos hlong, ht]
      rfl
    · have h47 : (msg.data.take 47).length = 47 := by
        rw [List.length_take]
        omega
      have : (String.mk (msg.data.take 47) ++ "...").length
          = (msg.data.take 47).length + 3 := by
        rw [String.length_append]
        rfl
      omega
  refine ⟨?_, hbig⟩
  by_cases hlong : utf8Len msg.data > 50
  · unfold renderMessage
    rw [(hbig hlong).1]
    exact ⟨_, rfl⟩
  · unfold renderMessage truncateDisplay
    rw [if_neg hlong]
    exact ⟨_, rfl⟩

/-- Witness for C10: a 60-byte all-ASCII message with a repeat count. -/
theorem C10_witness :
    (∃ d, renderMessage (String.mk (List.replicate 60 'a')) 2 = some d)
    ∧ (utf8Len (String.mk (List.replicate 60 'a')).data > 50 →
        truncateDisplay (String.mk (List.replicate 60 'a'))
            = some (String.mk ((String.mk (List.replicate 60 'a')).data.take 47)
                ++ "...")
          ∧ (String.mk ((String.mk (List.replicate 60 'a')).data.take 47)
              ++ "...").length = 50) :=
  C10_truncation_safe (String.mk (List.replicate 60 'a')) 2 (by decide)

end Watchdog
